import Mathlib

/-!
Shallow embedding of `cbpro/order_book.py` (class `OrderBook`).

Conventions of the embedding:
* Prices and sizes use `decimal.Decimal` in the source (exact decimal
  arithmetic); decimals embed into the rationals `ℚ`, with subtraction,
  negation and the total order agreeing.
* A `SortedDict` from price to the list of resting orders is embedded as an
  association list `SideMap`; `peekitem(0)` and `peekitem(-1)` on a
  `SortedDict` return the entry with the minimum resp. maximum key, embedded
  as `minKey` / `maxKey`.
* A Python dict message is embedded as `Message` with `Option` fields for
  keys that may be absent; `d[k]` on an absent key raises `KeyError`,
  embedded as `Except.error (Fault.keyError k)`; `d.get(k, v)` is `Option.getD`.
  Feed messages carry numeric fields as nonempty JSON strings, so a present
  numeric field is truthy in a Python `a or b` expression; for id strings the
  empty string is falsy and falls through.
* A failed `assert` raises `AssertionError`, embedded as
  `Except.error Fault.assertionError`.
-/

/-- One resting order: the dict `{'id', 'side', 'price', 'size'}` built by
`OrderBook.add`; the size field is always a decimal once resting. -/
structure Order where
  id : String
  side : String
  price : ℚ
  size : ℚ
deriving DecidableEq, Repr

/-- The queue of resting orders at one price, oldest first. -/
abbrev Level := List Order

/-- One side of the book: the `SortedDict` from price to order queue,
embedded as an association list with unique keys. -/
abbrev SideMap := List (ℚ × Level)

/-- A raised Python exception: `KeyError(field)` or `AssertionError`. -/
inductive Fault where
  | keyError (field : String)
  | assertionError
deriving DecidableEq, Repr

/-- The value returned by the mutation primitives and by `on_message`: a
`(price, size_delta)` pair (price may be Python `None`), a diagnostic string,
or Python `None` (for acknowledged no-ops such as `received`). -/
inductive Outcome where
  | change (price : Option ℚ) (delta : ℚ)
  | diag (s : String)
  | nothing
deriving DecidableEq, Repr

/-- The mutable state of an `OrderBook` instance: `_bids`, `_asks`,
`_sequence` and `_current_ticker`. -/
structure OrderBook where
  bids : SideMap
  asks : SideMap
  sequence : Int
  current_ticker : Option String
deriving DecidableEq, Repr

/-- A feed message, with `Option` fields for dict keys that may be absent.
The `side` key is present on every message the dispatcher routes to a
mutation primitive, so it is a plain field. -/
structure Message where
  type : String
  sequence : Option Int
  side : String
  price : Option ℚ
  size : Option ℚ
  remaining_size : Option ℚ
  order_id : Option String
  id : Option String
  maker_order_id : Option String
  new_size : Option ℚ
  reason : Option String
  product_id : Option String
deriving DecidableEq, Repr

/-- A message with every optional key absent, for building concrete messages. -/
def msg0 : Message :=
  { type := "", sequence := none, side := "", price := none, size := none,
    remaining_size := none, order_id := none, id := none,
    maker_order_id := none, new_size := none, reason := none,
    product_id := none }

/-- Exception-propagating bind, the embedding of calling fallible Python code. -/
def bindE {α β : Type} : Except Fault α → (α → Except Fault β) → Except Fault β
  | .error e, _ => .error e
  | .ok a, f => f a

/-- Dict lookup `d[k]` of a required key: `KeyError` when absent. -/
def reqField {α : Type} (o : Option α) (k : String) : Except Fault α :=
  match o with
  | some v => .ok v
  | none => .error (.keyError k)

/-- `SortedDict.get(price)`: the queue at a price, or `None`. -/
def mapGet : SideMap → ℚ → Option Level
  | [], _ => none
  | e :: rest, p => if e.1 = p then some e.2 else mapGet rest p

/-- `self._asks[price] = asks`: replace the entry when the key is present,
insert it otherwise. -/
def mapSet : SideMap → ℚ → Level → SideMap
  | [], p, l => [(p, l)]
  | e :: rest, p, l => if e.1 = p then (p, l) :: rest else e :: mapSet rest p l

/-- `del self._asks[price]`: delete the entry, raising `KeyError` when the
key is absent. -/
def mapDel : SideMap → ℚ → Except Fault SideMap
  | [], _ => .error (.keyError "price")
  | e :: rest, p =>
      if e.1 = p then .ok rest
      else bindE (mapDel rest p) (fun r => .ok (e :: r))

/-- `minKey` of the key set: what `SortedDict.peekitem(0)[0]` returns
(`none` embeds the `IndexError` raised on an empty dict). -/
def minKey : SideMap → Option ℚ
  | [] => none
  | e :: rest =>
      some (match minKey rest with
            | none => e.1
            | some q => min e.1 q)

/-- `maxKey` of the key set: what `SortedDict.peekitem(-1)[0]` returns. -/
def maxKey : SideMap → Option ℚ
  | [] => none
  | e :: rest =>
      some (match maxKey rest with
            | none => e.1
            | some q => max e.1 q)

/-- The string case of `is_bid_side`: `m[0] == "b"`. The dict case just
recurses into the side string; an empty side string would raise in Python
and never occurs on dispatched events. -/
def is_bid_side (s : String) : Bool := s.toList.head? = some 'b'

/-- Accessor `OrderBook.get_asks`. -/
def OrderBook.get_asks (b : OrderBook) (price : ℚ) : Option Level :=
  mapGet b.asks price

/-- Accessor `OrderBook.set_asks`. -/
def OrderBook.set_asks (b : OrderBook) (price : ℚ) (asks : Level) : OrderBook :=
  { b with asks := mapSet b.asks price asks }

/-- Accessor `OrderBook.remove_asks` (`del` raises on an absent key). -/
def OrderBook.remove_asks (b : OrderBook) (price : ℚ) : Except Fault OrderBook :=
  bindE (mapDel b.asks price) (fun a => .ok { b with asks := a })

/-- `OrderBook.get_ask`: `self._asks.peekitem(0)[0]`, the lowest ask price. -/
def OrderBook.get_ask (b : OrderBook) : Option ℚ := minKey b.asks

/-- Accessor `OrderBook.get_bids`. -/
def OrderBook.get_bids (b : OrderBook) (price : ℚ) : Option Level :=
  mapGet b.bids price

/-- Accessor `OrderBook.set_bids`. -/
def OrderBook.set_bids (b : OrderBook) (price : ℚ) (bids : Level) : OrderBook :=
  { b with bids := mapSet b.bids price bids }

/-- Accessor `OrderBook.remove_bids`. -/
def OrderBook.remove_bids (b : OrderBook) (price : ℚ) : Except Fault OrderBook :=
  bindE (mapDel b.bids price) (fun a => .ok { b with bids := a })

/-- `OrderBook.get_bid`: `self._bids.peekitem(-1)[0]`, the highest bid price. -/
def OrderBook.get_bid (b : OrderBook) : Option ℚ := maxKey b.bids

/-- The id of the order being added: `order.get('order_id') or order['id']`
(an absent or empty `order_id` falls through to the required `id`). -/
def addOrderId (m : Message) : Except Fault String :=
  match m.order_id with
  | some s => if s = "" then reqField m.id "id" else .ok s
  | none => reqField m.id "id"

/-- The size of the order being added:
`Decimal(order.get('size') or order['remaining_size'])`; a present numeric
feed field is a nonempty string, hence truthy. -/
def addSize (m : Message) : Except Fault ℚ :=
  match m.size with
  | some s => .ok s
  | none => reqField m.remaining_size "remaining_size"

/-- `OrderBook.add`: build the order, append it to the tail of the queue at
its price (creating a singleton queue when the level is absent), and return
`(price, size)`. -/
def OrderBook.add (b : OrderBook) (m : Message) : Except Fault (OrderBook × Outcome) :=
  bindE (addOrderId m) fun oid =>
  bindE (reqField m.price "price") fun price =>
  bindE (addSize m) fun size =>
  if m.side = "buy" then
    .ok (b.set_bids price
          (match b.get_bids price with
           | none => [⟨oid, m.side, price, size⟩]
           | some l => l ++ [⟨oid, m.side, price, size⟩]),
         Outcome.change (some price) size)
  else
    .ok (b.set_asks price
          (match b.get_asks price with
           | none => [⟨oid, m.side, price, size⟩]
           | some l => l ++ [⟨oid, m.side, price, size⟩]),
         Outcome.change (some price) size)

/-- Accumulator of the scan loop inside `OrderBook.remove`. -/
structure ScanResult where
  kept : Level
  size : ℚ
  price : ℚ
  found : Bool
deriving DecidableEq, Repr

/-- The scan loop of `OrderBook.remove` over the queue at the looked-up
price: keep orders whose id differs from `removal_id`; for each dropped
order, fall back to its resting size when the running size is 0 and to its
price when the running price is the sentinel -1, and set the found flag.
The resting size of an order is never Python `None`, so the
`osize is not None` conjunct is always true. -/
def removeScan (rid : Option String) : Level → ℚ → ℚ → Bool → ScanResult
  | [], size, price, found => ⟨[], size, price, found⟩
  | o :: rest, size, price, found =>
      if some o.id ≠ rid then
        let r := removeScan rid rest size price found
        ⟨o :: r.kept, r.size, r.price, r.found⟩
      else
        removeScan rid rest (if size = 0 then o.size else size)
          (if price = -1 then o.price else price) true

/-- The epilogue of `OrderBook.remove`: reset the size to 0 when no order
was found (the `if size is None` guard is vacuous since resting sizes are
never `None`), turn the sentinel price -1 into `None`, and return
`(price_or_none, -size)`. -/
def removeFinish (b1 : OrderBook) (size price : ℚ) (found : Bool) :
    Except Fault (OrderBook × Outcome) :=
  .ok (b1, Outcome.change (if price = -1 then none else some price)
        (-(if found then size else 0)))

/-- `OrderBook.remove`: look up the level at the event price (sentinel -1
when absent), drop the order whose id matches, write back the surviving
queue (at the possibly rewritten running price) or delete the now-empty
level, then apply the epilogue. -/
def OrderBook.remove (b : OrderBook) (m : Message) : Except Fault (OrderBook × Outcome) :=
  if m.side = "buy" then
    match b.get_bids ((m.price).getD (-1)) with
    | none => removeFinish b ((m.size).getD 0) ((m.price).getD (-1)) false
    | some fbids =>
        match removeScan m.order_id fbids ((m.size).getD 0) ((m.price).getD (-1)) false with
        | ⟨kept, size1, price1, found⟩ =>
            if kept = [] then
              bindE (b.remove_bids price1) fun b1 => removeFinish b1 size1 price1 found
            else removeFinish (b.set_bids price1 kept) size1 price1 found
  else
    match b.get_asks ((m.price).getD (-1)) with
    | none => removeFinish b ((m.size).getD 0) ((m.price).getD (-1)) false
    | some fasks =>
        match removeScan m.order_id fasks ((m.size).getD 0) ((m.price).getD (-1)) false with
        | ⟨kept, size1, price1, found⟩ =>
            if kept = [] then
              bindE (b.remove_asks price1) fun b1 => removeFinish b1 size1 price1 found
            else removeFinish (b.set_asks price1 kept) size1 price1 found

/-- `OrderBook.match`: the traded size and price are required; an absent or
empty (falsy) queue at the price degrades to a diagnostic; the maker order
must be the queue head (`assert`), then the head is popped on an exact-size
trade (writing back the tail, even when the tail is empty) or decremented in
place, and `(price, -size)` is returned. Named `matchMsg` because `match` is
a Lean keyword. -/
def OrderBook.matchMsg (b : OrderBook) (m : Message) : Except Fault (OrderBook × Outcome) :=
  bindE (reqField m.size "size") fun size =>
  bindE (reqField m.price "price") fun price =>
  if m.side = "buy" then
    match b.get_bids price with
    | none => .ok (b, Outcome.diag "Failed to find bids at this price for match")
    | some [] => .ok (b, Outcome.diag "Failed to find bids at this price for match")
    | some (o :: rest) =>
        bindE (reqField m.maker_order_id "maker_order_id") fun maker =>
        if o.id = maker then
          if o.size = size then
            .ok (b.set_bids price rest, Outcome.change (some price) (-size))
          else
            .ok (b.set_bids price ({ o with size := o.size - size } :: rest),
                 Outcome.change (some price) (-size))
        else .error .assertionError
  else
    match b.get_asks price with
    | none => .ok (b, Outcome.diag "Failed to find asks at this price for match")
    | some [] => .ok (b, Outcome.diag "Failed to find asks at this price for match")
    | some (o :: rest) =>
        bindE (reqField m.maker_order_id "maker_order_id") fun maker =>
        if o.id = maker then
          if o.size = size then
            .ok (b.set_asks price rest, Outcome.change (some price) (-size))
          else
            .ok (b.set_asks price ({ o with size := o.size - size } :: rest),
                 Outcome.change (some price) (-size))
        else .error .assertionError

/-- Replace the size of the first order in the queue whose id matches,
returning its old size and the updated queue; `none` when no id matches.
This is `index = [b['id'] for b in bids].index(order['order_id'])` followed
by the in-place size overwrite, and the `not any(...)` guard before it. -/
def setFirstSize (oid : String) (new_size : ℚ) : Level → Option (ℚ × Level)
  | [] => none
  | o :: rest =>
      if o.id = oid then some (o.size, { o with size := new_size } :: rest)
      else
        match setFirstSize oid new_size rest with
        | none => none
        | some (old, rest1) => some (old, o :: rest1)

/-- The re-check at the end of `OrderBook.change`: look the price up again in
the side-derived tree (`is_bid_side`) and require an order with the id there,
else a diagnostic; otherwise return `(price, new_size - old_size)`. -/
def changeFinish (b1 : OrderBook) (m : Message) (price : ℚ) (oid : String)
    (old_size new_size : ℚ) : Except Fault (OrderBook × Outcome) :=
  match mapGet (if is_bid_side m.side then b1.bids else b1.asks) price with
  | none => .ok (b1, Outcome.diag "Failed to find node at this price for change")
  | some node =>
      if ∀ o ∈ node, o.id ≠ oid then
        .ok (b1, Outcome.diag "Failed to find node at this price for change")
      else .ok (b1, Outcome.change (some price) (new_size - old_size))

/-- `OrderBook.change`: a missing `new_size` or `price` key degrades to a
diagnostic (the `try ... except KeyError`); an absent level, an empty queue,
or no order with the id at that price degrades to a diagnostic with no
mutation; otherwise the matching order keeps its queue position and only its
size is overwritten. On an empty queue Python never evaluates
`order['order_id']` (the `any` generator body never runs), so the
`order_id` lookup happens only on a nonempty queue. -/
def OrderBook.change (b : OrderBook) (m : Message) : Except Fault (OrderBook × Outcome) :=
  match m.new_size with
  | none => .ok (b, Outcome.diag "Failed to find new size at this price for change")
  | some new_size =>
  match m.price with
  | none => .ok (b, Outcome.diag "Failed to find new price for change")
  | some price =>
  if m.side = "buy" then
    match b.get_bids price with
    | none => .ok (b, Outcome.diag "Failed to find bids at this price for change")
    | some bids =>
        if bids = [] then
          .ok (b, Outcome.diag "Failed to find bids at this price for change")
        else
          bindE (reqField m.order_id "order_id") fun oid =>
          match setFirstSize oid new_size bids with
          | none => .ok (b, Outcome.diag "Failed to find bids at this price for change")
          | some (old_size, bids1) =>
              changeFinish (b.set_bids price bids1) m price oid old_size new_size
  else
    match b.get_asks price with
    | none => .ok (b, Outcome.diag "Failed to find asks at this price for change")
    | some asks =>
        if asks = [] then
          .ok (b, Outcome.diag "Failed to find asks at this price for change")
        else
          bindE (reqField m.order_id "order_id") fun oid =>
          match setFirstSize oid new_size asks with
          | none => .ok (b, Outcome.diag "Failed to find asks at this price for change")
          | some (old_size, asks1) =>
              changeFinish (b.set_asks price asks1) m price oid old_size new_size

/-- Modelled from the spec: the SyncProvider snapshot
`snapshot(product_id) -> {sequence, bids:[(price,size,order_id)], asks:[...]}`
(spec section 6). `PublicClient.get_product_order_book`, which produces it,
is outside the embedded source, so the snapshot is passed in as a value. -/
structure Snapshot where
  sequence : Int
  bids : List (ℚ × ℚ × String)
  asks : List (ℚ × ℚ × String)
deriving DecidableEq, Repr

/-- The dict `{'id', 'side', 'price', 'size'}` that `reset_book` passes to
`add` for one snapshot triple. -/
def snapMessage (sideStr : String) (e : ℚ × ℚ × String) : Message :=
  { msg0 with id := some e.2.2, side := sideStr, price := some e.1,
              size := some e.2.1 }

/-- One `self.add(...)` call whose returned pair is discarded. -/
def addBook (bk : OrderBook) (m : Message) : Except Fault OrderBook :=
  bindE (bk.add m) fun r => .ok r.1

/-- The `for` loops of `reset_book`, an exception-propagating left fold. -/
def foldE {α : Type} (f : OrderBook → α → Except Fault OrderBook) :
    OrderBook → List α → Except Fault OrderBook
  | bk, [] => .ok bk
  | bk, a :: rest => bindE (f bk a) fun bk1 => foldE f bk1 rest

/-- `OrderBook.reset_book`: clear both sides, replay every snapshot bid and
ask through `add`, then set `_sequence` to the snapshot sequence. -/
def OrderBook.reset_book (b : OrderBook) (snap : Snapshot) : Except Fault OrderBook :=
  bindE (foldE (fun bk e => addBook bk (snapMessage "buy" e))
          { b with bids := [], asks := [] } snap.bids) fun b1 =>
  bindE (foldE (fun bk e => addBook bk (snapMessage "sell" e)) b1 snap.asks) fun b2 =>
  .ok { b2 with sequence := snap.sequence }

/-- `OrderBook.on_message`: resync when uninitialized (sequence -1), ignore
stale events, resync on a sequence gap (returning before the sequence is
advanced), otherwise dispatch on the message type, record the product tag
and advance the sequence to the event sequence. -/
def OrderBook.on_message (b : OrderBook) (snap : Snapshot) (m : Message) :
    Except Fault (OrderBook × Outcome) :=
  if b.sequence = -1 then
    bindE (b.reset_book snap) fun b1 =>
      .ok (b1, Outcome.diag "Reset book due to negative sequence")
  else if (m.sequence).getD (-1) ≤ b.sequence then
    .ok (b, Outcome.diag "Current book sequence beyond this order")
  else if b.sequence + 1 < (m.sequence).getD (-1) then
    bindE (b.reset_book snap) fun b1 =>
      .ok (b1, Outcome.diag "Sequence gap to this order")
  else
    bindE
      (if m.type = "open" then b.add m
       else if m.type = "done" ∧ (m.price).isSome then b.remove m
       else if m.type = "done" ∧ m.reason = some "filled" then b.remove m
       else if m.type = "match" then b.matchMsg m
       else if m.type = "change" then b.change m
       else if m.type = "received" then .ok (b, Outcome.nothing)
       else .ok (b, Outcome.diag "Untreated message type"))
      fun r =>
        .ok ({ r.1 with
               current_ticker := m.product_id
               sequence := (m.sequence).getD (-1) }, r.2)

/-- Applying a list of messages in order, keeping the final book. -/
def applyAll (b : OrderBook) (snap : Snapshot) : List Message → Except Fault OrderBook
  | [] => .ok b
  | m :: rest =>
      bindE (b.on_message snap m) fun r => applyAll r.1 snap rest

/-- A level exists in the index iff its order queue is non-empty. -/
def noEmptyLevels (s : SideMap) : Prop := ∀ e ∈ s, e.2 ≠ []

/-- The book-level invariant claimed by the spec: no dangling empty level
on either side. -/
def BookInv (b : OrderBook) : Prop := noEmptyLevels b.bids ∧ noEmptyLevels b.asks

instance (s : SideMap) : Decidable (noEmptyLevels s) := by
  unfold noEmptyLevels
  infer_instance

instance (b : OrderBook) : Decidable (BookInv b) := by
  unfold BookInv
  infer_instance

/-! ### Basic lemmas -/

@[simp] theorem bindE_ok {α β : Type} (a : α) (f : α → Except Fault β) :
    bindE (.ok a) f = f a := rfl

@[simp] theorem bindE_error {α β : Type} (e : Fault) (f : α → Except Fault β) :
    bindE (.error e) f = .error e := rfl

@[simp] theorem reqField_some {α : Type} (v : α) (k : String) :
    reqField (some v) k = .ok v := rfl

@[simp] theorem reqField_none {α : Type} (k : String) :
    reqField (none : Option α) k = .error (.keyError k) := rfl

theorem mapGet_eq_none {s : SideMap} {p : ℚ} (h : ∀ e ∈ s, e.1 ≠ p) :
    mapGet s p = none := by
  induction s with
  | nil => rfl
  | cons e rest ih =>
      simp only [mapGet]
      rw [if_neg (h e (List.mem_cons_self e rest))]
      exact ih fun x hx => h x (List.mem_cons_of_mem e hx)

theorem mapGet_mapSet_self (s : SideMap) (p : ℚ) (l : Level) :
    mapGet (mapSet s p l) p = some l := by
  induction s with
  | nil => simp [mapSet, mapGet]
  | cons e rest ih =>
      by_cases h : e.1 = p
      · simp [mapSet, mapGet, h]
      · simp only [mapSet, if_neg h, mapGet]
        exact ih

theorem noEmptyLevels_nil : noEmptyLevels [] := by
  intro e he
  cases he

theorem noEmptyLevels_mapSet {s : SideMap} {p : ℚ} {l : Level}
    (hs : noEmptyLevels s) (hl : l ≠ []) : noEmptyLevels (mapSet s p l) := by
  induction s with
  | nil =>
      intro e he
      simp only [mapSet, List.mem_singleton] at he
      subst he
      exact hl
  | cons x rest ih =>
      intro e he
      simp only [mapSet] at he
      by_cases hx : x.1 = p
      · rw [if_pos hx] at he
        rcases List.mem_cons.mp he with h1 | h1
        · subst h1; exact hl
        · exact hs e (List.mem_cons_of_mem x h1)
      · rw [if_neg hx] at he
        rcases List.mem_cons.mp he with h1 | h1
        · rw [h1]; exact hs x (List.mem_cons_self x rest)
        · exact ih (fun y hy => hs y (List.mem_cons_of_mem x hy)) e h1

theorem noEmptyLevels_mapDel {s s1 : SideMap} {p : ℚ}
    (h : mapDel s p = .ok s1) (hs : noEmptyLevels s) : noEmptyLevels s1 := by
  induction s generalizing s1 with
  | nil => simp [mapDel] at h
  | cons x rest ih =>
      simp only [mapDel] at h
      by_cases hx : x.1 = p
      · rw [if_pos hx] at h
        simp only [Except.ok.injEq] at h
        subst h
        exact fun e he => hs e (List.mem_cons_of_mem x he)
      · rw [if_neg hx] at h
        cases hr : mapDel rest p with
        | error e => rw [hr] at h; simp [bindE] at h
        | ok r =>
            rw [hr] at h
            simp only [bindE_ok, Except.ok.injEq] at h
            subst h
            intro e he
            rcases List.mem_cons.mp he with h1 | h1
            · rw [h1]; exact hs x (List.mem_cons_self x rest)
            · exact ih hr (fun y hy => hs y (List.mem_cons_of_mem x hy)) e h1

/-! ### C5 : stale events are ignored without any state change -/

/-- C5: for every book whose sequence is not -1 and every event whose
sequence is at most the current sequence, `on_message` returns the
diagnostic string and leaves the whole book state (both indexes, the
sequence, and the ticker) exactly unchanged. -/
theorem C5_stale_noop (b : OrderBook) (snap : Snapshot) (m : Message)
    (hseq : b.sequence ≠ -1) (hst : (m.sequence).getD (-1) ≤ b.sequence) :
    b.on_message snap m =
      .ok (b, Outcome.diag "Current book sequence beyond this order") := by
  unfold OrderBook.on_message
  rw [if_neg hseq, if_pos hst]

theorem C5_stale_noop_witness :
    OrderBook.on_message ⟨[((100 : ℚ), [⟨"z", "buy", 100, 3⟩])], [], 10, none⟩
        ⟨0, [], []⟩ { msg0 with sequence := some 9 } =
      .ok (⟨[((100 : ℚ), [⟨"z", "buy", 100, 3⟩])], [], 10, none⟩,
           Outcome.diag "Current book sequence beyond this order") :=
  C5_stale_noop _ _ _ (by decide) (by decide)

/-! ### C10 : removal with no price searches the sentinel level -1 -/

/-- C10: when the remove event carries no price, the lookup happens at the
sentinel price -1; if no level sits at -1 on either side, nothing is found
(even when an order with the given id rests elsewhere), the book is
unchanged, and the outcome is `(None, 0)`. -/
theorem C10_remove_no_price (b : OrderBook) (m : Message)
    (hp : m.price = none)
    (hb : ∀ e ∈ b.bids, e.1 ≠ (-1 : ℚ)) (ha : ∀ e ∈ b.asks, e.1 ≠ (-1 : ℚ)) :
    b.remove m = .ok (b, Outcome.change none 0) := by
  unfold OrderBook.remove
  rw [hp]
  by_cases hs : m.side = "buy"
  · rw [if_pos hs, show b.get_bids ((none : Option ℚ).getD (-1)) = none from
        mapGet_eq_none hb]
    simp [removeFinish]
  · rw [if_neg hs, show b.get_asks ((none : Option ℚ).getD (-1)) = none from
        mapGet_eq_none ha]
    simp [removeFinish]

theorem C10_remove_no_price_witness :
    OrderBook.remove ⟨[((100 : ℚ), [⟨"z", "buy", 100, 3⟩])], [], 10, none⟩
        { msg0 with
          type := "done"
          side := "buy"
          order_id := some "z"
          reason := some "filled" } =
      .ok (⟨[((100 : ℚ), [⟨"z", "buy", 100, 3⟩])], [], 10, none⟩,
           Outcome.change none 0) :=
  C10_remove_no_price _ _ rfl (by decide) (by decide)

/-! ### C3 : best bid and best ask -/

theorem minKey_eq_none_iff (s : SideMap) : minKey s = none ↔ s = [] := by
  cases s with
  | nil => simp [minKey]
  | cons e rest => simp [minKey]

theorem maxKey_eq_none_iff (s : SideMap) : maxKey s = none ↔ s = [] := by
  cases s with
  | nil => simp [maxKey]
  | cons e rest => simp [maxKey]

theorem minKey_spec {s : SideMap} {p : ℚ} (h : minKey s = some p) :
    (∃ e ∈ s, e.1 = p) ∧ ∀ e ∈ s, p ≤ e.1 := by
  induction s generalizing p with
  | nil => cases h
  | cons e rest ih =>
      simp only [minKey] at h
      cases hr : minKey rest with
      | none =>
          rw [hr] at h
          simp only [Option.some.injEq] at h
          have hrest : rest = [] := (minKey_eq_none_iff rest).mp hr
          subst hrest
          refine ⟨⟨e, List.mem_cons_self e [], h⟩, ?_⟩
          intro x hx
          rcases List.mem_cons.mp hx with h1 | h1
          · rw [h1, h]
          · cases h1
      | some q =>
          rw [hr] at h
          simp only [Option.some.injEq] at h
          obtain ⟨⟨w, hw, hwp⟩, hall⟩ := ih hr
          constructor
          · rcases le_total e.1 q with hle | hle
            · exact ⟨e, List.mem_cons_self e rest, by rw [← h, min_eq_left hle]⟩
            · exact ⟨w, List.mem_cons_of_mem e hw, by rw [hwp, ← h, min_eq_right hle]⟩
          · intro x hx
            rcases List.mem_cons.mp hx with h1 | h1
            · rw [h1, ← h]; exact min_le_left _ _
            · calc p = min e.1 q := h.symm
                _ ≤ q := min_le_right _ _
                _ ≤ x.1 := hall x h1

theorem maxKey_spec {s : SideMap} {p : ℚ} (h : maxKey s = some p) :
    (∃ e ∈ s, e.1 = p) ∧ ∀ e ∈ s, e.1 ≤ p := by
  induction s generalizing p with
  | nil => cases h
  | cons e rest ih =>
      simp only [maxKey] at h
      cases hr : maxKey rest with
      | none =>
          rw [hr] at h
          simp only [Option.some.injEq] at h
          have hrest : rest = [] := (maxKey_eq_none_iff rest).mp hr
          subst hrest
          refine ⟨⟨e, List.mem_cons_self e [], h⟩, ?_⟩
          intro x hx
          rcases List.mem_cons.mp hx with h1 | h1
          · rw [h1, h]
          · cases h1
      | some q =>
          rw [hr] at h
          simp only [Option.some.injEq] at h
          obtain ⟨⟨w, hw, hwp⟩, hall⟩ := ih hr
          constructor
          · rcases le_total e.1 q with hle | hle
            · exact ⟨w, List.mem_cons_of_mem e hw, by rw [hwp, ← h, max_eq_right hle]⟩
            · exact ⟨e, List.mem_cons_self e rest, by rw [← h, max_eq_left hle]⟩
          · intro x hx
            rcases List.mem_cons.mp hx with h1 | h1
            · rw [h1, ← h]; exact le_max_left _ _
            · calc x.1 ≤ q := hall x h1
                _ ≤ max e.1 q := le_max_right _ _
                _ = p := h

/-- C3: `get_ask` returns the lowest ask price and `get_bid` the highest bid
price; each returns `none` (the `peekitem` `IndexError`, the EmptyBookError
of the spec) exactly when the corresponding side holds no levels. -/
theorem C3_best (b : OrderBook) :
    (b.get_ask = none ↔ b.asks = []) ∧
    (b.get_bid = none ↔ b.bids = []) ∧
    (∀ p, b.get_ask = some p → (∃ e ∈ b.asks, e.1 = p) ∧ ∀ e ∈ b.asks, p ≤ e.1) ∧
    (∀ p, b.get_bid = some p → (∃ e ∈ b.bids, e.1 = p) ∧ ∀ e ∈ b.bids, e.1 ≤ p) :=
  ⟨minKey_eq_none_iff b.asks, maxKey_eq_none_iff b.bids,
   fun _ h => minKey_spec h, fun _ h => maxKey_spec h⟩

theorem C3_best_witness :
    OrderBook.get_ask ⟨[((3 : ℚ), [⟨"u", "buy", 3, 1⟩])],
        [((7 : ℚ), [⟨"v", "sell", 7, 1⟩]), ((2 : ℚ), [⟨"w", "sell", 2, 1⟩])], 10, none⟩
      = some 2 ∧
    (2 : ℚ) ≤ 7 ∧
    OrderBook.get_bid ⟨[((3 : ℚ), [⟨"u", "buy", 3, 1⟩])],
        [((7 : ℚ), [⟨"v", "sell", 7, 1⟩]), ((2 : ℚ), [⟨"w", "sell", 2, 1⟩])], 10, none⟩
      = some 3 :=
  ⟨by decide,
   ((C3_best ⟨[((3 : ℚ), [⟨"u", "buy", 3, 1⟩])],
        [((7 : ℚ), [⟨"v", "sell", 7, 1⟩]), ((2 : ℚ), [⟨"w", "sell", 2, 1⟩])],
        10, none⟩).2.2.1 2 (by decide)).2
     ((7 : ℚ), [⟨"v", "sell", 7, 1⟩]) (by decide),
   by decide⟩

/-! ### C2 : a sequence gap triggers exactly one resync -/

theorem addBook_snap_ok (bk : OrderBook) (s : String) (e : ℚ × ℚ × String) :
    ∃ bk1, addBook bk (snapMessage s e) = .ok bk1 := by
  by_cases hs : s = "buy" <;>
    simp [addBook, OrderBook.add, addOrderId, addSize, snapMessage, msg0, bindE, hs]

theorem foldE_ok {α : Type} (f : OrderBook → α → Except Fault OrderBook)
    (hf : ∀ bk a, ∃ bk1, f bk a = .ok bk1) :
    ∀ (l : List α) (bk), ∃ bk1, foldE f bk l = .ok bk1 := by
  intro l
  induction l with
  | nil => intro bk; exact ⟨bk, rfl⟩
  | cons a rest ih =>
      intro bk
      obtain ⟨bk1, h1⟩ := hf bk a
      obtain ⟨bk2, h2⟩ := ih bk1
      exact ⟨bk2, by simp only [foldE, h1, bindE_ok, h2]⟩

/-- `reset_book` always succeeds on a value snapshot and installs the
snapshot sequence as the new book sequence. -/
theorem reset_book_ok (b : OrderBook) (snap : Snapshot) :
    ∃ b1, b.reset_book snap = .ok b1 ∧ b1.sequence = snap.sequence := by
  obtain ⟨b1, h1⟩ :=
    foldE_ok (fun bk e => addBook bk (snapMessage "buy" e))
      (fun bk e => addBook_snap_ok bk "buy" e) snap.bids
      { b with bids := [], asks := [] }
  obtain ⟨b2, h2⟩ :=
    foldE_ok (fun bk e => addBook bk (snapMessage "sell" e))
      (fun bk e => addBook_snap_ok bk "sell" e) snap.asks b1
  exact ⟨{ b2 with sequence := snap.sequence },
         by simp only [OrderBook.reset_book, h1, bindE_ok, h2], rfl⟩

/-- C2: on a synced book (sequence `S ≥ 0`), an event whose sequence exceeds
`S + 1` makes `on_message` perform exactly one resync: the resulting state is
precisely the output of one `reset_book` call (which clears both sides and
rebuilds from the snapshot, independently of the event), the event itself is
never dispatched to a mutation primitive (the outcome is the gap diagnostic),
and the resulting sequence is the snapshot sequence, not the event sequence. -/
theorem C2_gap_resync (b : OrderBook) (snap : Snapshot) (m : Message)
    (h0 : 0 ≤ b.sequence) (hgap : b.sequence + 1 < (m.sequence).getD (-1)) :
    ∃ b1, b.reset_book snap = .ok b1 ∧
      b.on_message snap m = .ok (b1, Outcome.diag "Sequence gap to this order") ∧
      b1.sequence = snap.sequence := by
  obtain ⟨b1, h1, hs1⟩ := reset_book_ok b snap
  refine ⟨b1, h1, ?_, hs1⟩
  have hne : ¬b.sequence = -1 := by omega
  have hnst : ¬(m.sequence).getD (-1) ≤ b.sequence := by omega
  unfold OrderBook.on_message
  rw [if_neg hne, if_neg hnst, if_pos hgap, h1, bindE_ok]

theorem C2_gap_resync_witness :
    ∃ b1, OrderBook.reset_book ⟨[((50 : ℚ), [⟨"q", "buy", 50, 1⟩])], [], 10, none⟩
            ⟨20, [(100, 2, "a")], [(101, 3, "b")]⟩ = .ok b1 ∧
      OrderBook.on_message ⟨[((50 : ℚ), [⟨"q", "buy", 50, 1⟩])], [], 10, none⟩
          ⟨20, [(100, 2, "a")], [(101, 3, "b")]⟩ { msg0 with sequence := some 16 } =
        .ok (b1, Outcome.diag "Sequence gap to this order") ∧
      b1.sequence = (20 : Int) :=
  C2_gap_resync _ _ _ (by decide) (by decide)

/-! ### C6 : add appends at the tail, absolute size takes precedence -/

/-- C6: for an add/open event carrying an order id, a price, and a size
(either the absolute `size` field, which wins whenever it is present no
matter what `remaining_size` holds, or else `remaining_size`), `add`
constructs the order with that size, appends it at the tail of the existing
queue at its price (or creates a new single-order level), leaves the other
side and the sequence untouched, and returns `(price, +size)`. -/
theorem C6_add (b : OrderBook) (m : Message) (oid : String) (p s : ℚ)
    (hid : m.order_id = some oid) (hne : oid ≠ "")
    (hp : m.price = some p)
    (hsz : m.size = some s ∨ (m.size = none ∧ m.remaining_size = some s)) :
    ∃ b1, b.add m = .ok (b1, Outcome.change (some p) s) ∧
      (m.side = "buy" →
        b1.asks = b.asks ∧ b1.sequence = b.sequence ∧
        b1.bids = mapSet b.bids p
          (match mapGet b.bids p with
           | none => [⟨oid, m.side, p, s⟩]
           | some l => l ++ [⟨oid, m.side, p, s⟩])) ∧
      (m.side ≠ "buy" →
        b1.bids = b.bids ∧ b1.sequence = b.sequence ∧
        b1.asks = mapSet b.asks p
          (match mapGet b.asks p with
           | none => [⟨oid, m.side, p, s⟩]
           | some l => l ++ [⟨oid, m.side, p, s⟩])) := by
  have hsize : addSize m = .ok s := by
    rcases hsz with h | ⟨h1, h2⟩
    · simp [addSize, h]
    · simp [addSize, h1, h2]
  have hoid : addOrderId m = .ok oid := by
    simp [addOrderId, hid, hne]
  by_cases hs : m.side = "buy"
  · refine ⟨b.set_bids p
      (match mapGet b.bids p with
       | none => [⟨oid, m.side, p, s⟩]
       | some l => l ++ [⟨oid, m.side, p, s⟩]), ?_, ?_, ?_⟩
    · unfold OrderBook.add
      rw [hoid, bindE_ok, hp, reqField_some, bindE_ok, hsize, bindE_ok, if_pos hs]
      cases hg : mapGet b.bids p <;> rw [show b.get_bids p = mapGet b.bids p from rfl, hg]
    · intro _
      exact ⟨rfl, rfl, rfl⟩
    · intro hcon
      exact absurd hs hcon
  · refine ⟨b.set_asks p
      (match mapGet b.asks p with
       | none => [⟨oid, m.side, p, s⟩]
       | some l => l ++ [⟨oid, m.side, p, s⟩]), ?_, ?_, ?_⟩
    · unfold OrderBook.add
      rw [hoid, bindE_ok, hp, reqField_some, bindE_ok, hsize, bindE_ok, if_neg hs]
      cases hg : mapGet b.asks p <;> rw [show b.get_asks p = mapGet b.asks p from rfl, hg]
    · intro hcon
      exact absurd hcon hs
    · intro _
      exact ⟨rfl, rfl, rfl⟩

theorem C6_add_witness :
    ∃ b1, OrderBook.add ⟨[((100 : ℚ), [⟨"a", "buy", 100, 2⟩])], [], 10, none⟩
        { msg0 with
          type := "open"
          side := "buy"
          order_id := some "c"
          price := some 100
          size := some 1
          remaining_size := some 5 } =
      .ok (b1, Outcome.change (some 100) 1) :=
  (C6_add _ _ "c" 100 1 rfl (by decide) rfl (Or.inl rfl)).elim
    (fun b1 h => ⟨b1, h.1⟩)

/-! ### C7 : maker not at queue head is a fatal assertion -/

/-- C7: for a match event, an absent level at the traded price degrades to a
descriptive non-fatal return, while a non-empty level whose head order id
differs from the event maker order id raises the fatal consistency
assertion (`AssertionError`), not a diagnostic value. -/
theorem C7_match_assert (b : OrderBook) (m : Message) (p s : ℚ)
    (hp : m.price = some p) (hs : m.size = some s) :
    (m.side = "buy" → mapGet b.bids p = none →
       b.matchMsg m = .ok (b, Outcome.diag "Failed to find bids at this price for match")) ∧
    (m.side ≠ "buy" → mapGet b.asks p = none →
       b.matchMsg m = .ok (b, Outcome.diag "Failed to find asks at this price for match")) ∧
    (∀ maker o rest, m.side = "buy" → m.maker_order_id = some maker →
       mapGet b.bids p = some (o :: rest) → o.id ≠ maker →
       b.matchMsg m = .error Fault.assertionError) ∧
    (∀ maker o rest, m.side ≠ "buy" → m.maker_order_id = some maker →
       mapGet b.asks p = some (o :: rest) → o.id ≠ maker →
       b.matchMsg m = .error Fault.assertionError) := by
  refine ⟨?_, ?_, ?_, ?_⟩
  · intro hside hg
    unfold OrderBook.matchMsg
    rw [hs, reqField_some, bindE_ok, hp, reqField_some, bindE_ok, if_pos hside,
        show b.get_bids p = mapGet b.bids p from rfl, hg]
  · intro hside hg
    unfold OrderBook.matchMsg
    rw [hs, reqField_some, bindE_ok, hp, reqField_some, bindE_ok, if_neg hside,
        show b.get_asks p = mapGet b.asks p from rfl, hg]
  · intro maker o rest hside hm hg hneq
    unfold OrderBook.matchMsg
    rw [hs, reqField_some, bindE_ok, hp, reqField_some, bindE_ok, if_pos hside,
        show b.get_bids p = mapGet b.bids p from rfl, hg]
    simp only [hm, reqField_some, bindE_ok, if_neg hneq]
  · intro maker o rest hside hm hg hneq
    unfold OrderBook.matchMsg
    rw [hs, reqField_some, bindE_ok, hp, reqField_some, bindE_ok, if_neg hside,
        show b.get_asks p = mapGet b.asks p from rfl, hg]
    simp only [hm, reqField_some, bindE_ok, if_neg hneq]

theorem C7_match_assert_witness :
    OrderBook.matchMsg ⟨[((100 : ℚ), [⟨"a", "buy", 100, 2⟩, ⟨"b", "buy", 100, 1⟩])],
        [], 10, none⟩
      { msg0 with
        type := "match"
        side := "buy"
        price := some 100
        size := some 1
        maker_order_id := some "b" } = .error Fault.assertionError ∧
    OrderBook.matchMsg ⟨[((100 : ℚ), [⟨"a", "buy", 100, 2⟩, ⟨"b", "buy", 100, 1⟩])],
        [], 10, none⟩
      { msg0 with
        type := "match"
        side := "buy"
        price := some 99
        size := some 1
        maker_order_id := some "b" } =
      .ok (⟨[((100 : ℚ), [⟨"a", "buy", 100, 2⟩, ⟨"b", "buy", 100, 1⟩])], [], 10, none⟩,
           Outcome.diag "Failed to find bids at this price for match") :=
  ⟨(C7_match_assert _ _ 100 1 rfl rfl).2.2.1 "b" ⟨"a", "buy", 100, 2⟩
      [⟨"b", "buy", 100, 1⟩] rfl rfl (by decide) (by decide),
   (C7_match_assert _ _ 99 1 rfl rfl).1 rfl (by decide)⟩

/-! ### C8 : match pops the head exactly but does not delete the level -/

/-- Counterexample to C8 as stated: matching the full size of the only order
at a price leaves the level present in the bid index with an empty queue
(`some []`), instead of deleting it (`none`), while returning
`(price, -size)` as claimed. -/
theorem C8_counterexample :
    (OrderBook.matchMsg ⟨[((100 : ℚ), [⟨"a", "buy", 100, 2⟩])], [], 10, none⟩
        { msg0 with
          type := "match"
          side := "buy"
          price := some 100
          size := some 2
          maker_order_id := some "a" }).map (fun r => (mapGet r.1.bids 100, r.2)) =
      .ok (some [], Outcome.change (some 100) (-2)) := by
  rfl

/-- C8 amended: when the maker order is at the head of the level at the
traded price, a trade of exactly the head order size pops exactly the head
order, writing the unchanged tail back at that price (the entry stays in the
index even when the tail is empty, rather than being deleted); a smaller
trade decrements the head order size in place at the head; both return
`(price, -size)`. -/
theorem C8_match_exact (b : OrderBook) (m : Message) (p s : ℚ) (maker : String)
    (o : Order) (rest : Level)
    (hp : m.price = some p) (hs : m.size = some s)
    (hm : m.maker_order_id = some maker) (hid : o.id = maker) :
    (m.side = "buy" → mapGet b.bids p = some (o :: rest) →
      ((o.size = s →
          b.matchMsg m = .ok ({ b with bids := mapSet b.bids p rest },
                              Outcome.change (some p) (-s))) ∧
       (o.size ≠ s →
          b.matchMsg m = .ok ({ b with
                                bids := mapSet b.bids p
                                  ({ o with size := o.size - s } :: rest) },
                              Outcome.change (some p) (-s))))) ∧
    (m.side ≠ "buy" → mapGet b.asks p = some (o :: rest) →
      ((o.size = s →
          b.matchMsg m = .ok ({ b with asks := mapSet b.asks p rest },
                              Outcome.change (some p) (-s))) ∧
       (o.size ≠ s →
          b.matchMsg m = .ok ({ b with
                                asks := mapSet b.asks p
                                  ({ o with size := o.size - s } :: rest) },
                              Outcome.change (some p) (-s))))) := by
  constructor
  · intro hside hg
    unfold OrderBook.matchMsg
    rw [hs, reqField_some, bindE_ok, hp, reqField_some, bindE_ok, if_pos hside,
        show b.get_bids p = mapGet b.bids p from rfl, hg]
    simp only [hm, reqField_some, bindE_ok, if_pos hid]
    constructor
    · intro hsz
      rw [if_pos hsz]
      rfl
    · intro hsz
      rw [if_neg hsz]
      rfl
  · intro hside hg
    unfold OrderBook.matchMsg
    rw [hs, reqField_some, bindE_ok, hp, reqField_some, bindE_ok, if_neg hside,
        show b.get_asks p = mapGet b.asks p from rfl, hg]
    simp only [hm, reqField_some, bindE_ok, if_pos hid]
    constructor
    · intro hsz
      rw [if_pos hsz]
      rfl
    · intro hsz
      rw [if_neg hsz]
      rfl

theorem C8_match_exact_witness :
    OrderBook.matchMsg ⟨[((100 : ℚ), [⟨"a", "buy", 100, 2⟩, ⟨"c", "buy", 100, 1⟩])],
        [], 10, none⟩
      { msg0 with
        type := "match"
        side := "buy"
        price := some 100
        size := some 2
        maker_order_id := some "a" } =
      .ok (⟨[((100 : ℚ), [⟨"c", "buy", 100, 1⟩])], [], 10, none⟩,
           Outcome.change (some 100) (-2)) :=
  ((C8_match_exact ⟨[((100 : ℚ), [⟨"a", "buy", 100, 2⟩, ⟨"c", "buy", 100, 1⟩])],
        [], 10, none⟩
      { msg0 with
        type := "match"
        side := "buy"
        price := some 100
        size := some 2
        maker_order_id := some "a" } 100 2 "a" ⟨"a", "buy", 100, 2⟩
      [⟨"c", "buy", 100, 1⟩] rfl rfl rfl rfl).1 rfl (by decide)).1 rfl

/-! ### C9 : change overwrites size in place -/

theorem setFirstSize_eq_none {oid : String} {ns : ℚ} {l : Level}
    (h : ∀ x ∈ l, x.id ≠ oid) : setFirstSize oid ns l = none := by
  induction l with
  | nil => rfl
  | cons o rest ih =>
      simp only [setFirstSize]
      rw [if_neg (h o (List.mem_cons_self o rest))]
      rw [ih fun x hx => h x (List.mem_cons_of_mem o hx)]

theorem setFirstSize_append (oid : String) (ns : ℚ) (l1 : Level) (o : Order)
    (l2 : Level) (h1 : ∀ x ∈ l1, x.id ≠ oid) (ho : o.id = oid) :
    setFirstSize oid ns (l1 ++ o :: l2) =
      some (o.size, l1 ++ { o with size := ns } :: l2) := by
  induction l1 with
  | nil =>
      simp only [List.nil_append, setFirstSize]
      rw [if_pos ho]
  | cons x rest ih =>
      have hx := h1 x (List.mem_cons_self x rest)
      have hr := ih fun y hy => h1 y (List.mem_cons_of_mem x hy)
      simp only [List.cons_append, setFirstSize, if_neg hx, List.append_eq, hr]

theorem changeFinish_found_bids {b1 : OrderBook} {m : Message} {price : ℚ}
    {oid : String} {old new : ℚ} {node : Level}
    (hside : is_bid_side m.side = true)
    (hg : mapGet b1.bids price = some node)
    (hmem : ∃ x ∈ node, x.id = oid) :
    changeFinish b1 m price oid old new =
      .ok (b1, Outcome.change (some price) (new - old)) := by
  unfold changeFinish
  rw [if_pos hside, hg]
  have hne : ¬∀ x ∈ node, x.id ≠ oid := by
    obtain ⟨x, hx, hxid⟩ := hmem
    intro hall
    exact hall x hx hxid
  simp only [if_neg hne]

theorem changeFinish_found_asks {b1 : OrderBook} {m : Message} {price : ℚ}
    {oid : String} {old new : ℚ} {node : Level}
    (hside : is_bid_side m.side = false)
    (hg : mapGet b1.asks price = some node)
    (hmem : ∃ x ∈ node, x.id = oid) :
    changeFinish b1 m price oid old new =
      .ok (b1, Outcome.change (some price) (new - old)) := by
  unfold changeFinish
  rw [if_neg (by rw [hside]; exact Bool.false_ne_true), hg]
  have hne : ¬∀ x ∈ node, x.id ≠ oid := by
    obtain ⟨x, hx, hxid⟩ := hmem
    intro hall
    exact hall x hx hxid
  simp only [if_neg hne]

/-- C9: for a change event with a new size, a price and an order id: when no
order with that id rests at that price on the given side, `change` returns a
descriptive failure and mutates nothing; otherwise it overwrites exactly
that order's size in place, preserving its position in the queue, and
returns `(price, new_size - old_size)`. -/
theorem C9_change (b : OrderBook) (m : Message) (p ns : ℚ) (oid : String)
    (hns : m.new_size = some ns) (hp : m.price = some p)
    (hoid : m.order_id = some oid) :
    (m.side = "buy" →
      ((mapGet b.bids p = none →
          b.change m = .ok (b, Outcome.diag "Failed to find bids at this price for change")) ∧
       (∀ l, mapGet b.bids p = some l → (∀ x ∈ l, x.id ≠ oid) →
          b.change m = .ok (b, Outcome.diag "Failed to find bids at this price for change")) ∧
       (∀ l1 o l2, mapGet b.bids p = some (l1 ++ o :: l2) → (∀ x ∈ l1, x.id ≠ oid) →
          o.id = oid →
          b.change m =
            .ok ({ b with bids := mapSet b.bids p (l1 ++ { o with size := ns } :: l2) },
                 Outcome.change (some p) (ns - o.size))))) ∧
    (m.side = "sell" →
      ((mapGet b.asks p = none →
          b.change m = .ok (b, Outcome.diag "Failed to find asks at this price for change")) ∧
       (∀ l, mapGet b.asks p = some l → (∀ x ∈ l, x.id ≠ oid) →
          b.change m = .ok (b, Outcome.diag "Failed to find asks at this price for change")) ∧
       (∀ l1 o l2, mapGet b.asks p = some (l1 ++ o :: l2) → (∀ x ∈ l1, x.id ≠ oid) →
          o.id = oid →
          b.change m =
            .ok ({ b with asks := mapSet b.asks p (l1 ++ { o with size := ns } :: l2) },
                 Outcome.change (some p) (ns - o.size))))) := by
  constructor
  · intro hside
    refine ⟨?_, ?_, ?_⟩
    · intro hg
      unfold OrderBook.change
      rw [hns, hp]
      simp only [if_pos hside, show b.get_bids p = mapGet b.bids p from rfl, hg]
    · intro l hg hall
      unfold OrderBook.change
      rw [hns, hp]
      simp only [if_pos hside, show b.get_bids p = mapGet b.bids p from rfl, hg]
      by_cases hl : l = []
      · rw [if_pos hl]
      · rw [if_neg hl, hoid, reqField_some, bindE_ok, setFirstSize_eq_none hall]
    · intro l1 o l2 hg h1 ho
      unfold OrderBook.change
      rw [hns, hp]
      simp only [if_pos hside, show b.get_bids p = mapGet b.bids p from rfl, hg]
      rw [if_neg (by simp : ¬(l1 ++ o :: l2 : Level) = []), hoid, reqField_some,
          bindE_ok, setFirstSize_append oid ns l1 o l2 h1 ho]
      exact changeFinish_found_bids (by rw [hside]; rfl)
        (mapGet_mapSet_self b.bids p (l1 ++ { o with size := ns } :: l2))
        ⟨{ o with size := ns },
         List.mem_append_right l1 (List.mem_cons_self _ l2), ho⟩
  · intro hside
    have hnb : ¬m.side = "buy" := by rw [hside]; decide
    refine ⟨?_, ?_, ?_⟩
    · intro hg
      unfold OrderBook.change
      rw [hns, hp]
      simp only [if_neg hnb, show b.get_asks p = mapGet b.asks p from rfl, hg]
    · intro l hg hall
      unfold OrderBook.change
      rw [hns, hp]
      simp only [if_neg hnb, show b.get_asks p = mapGet b.asks p from rfl, hg]
      by_cases hl : l = []
      · rw [if_pos hl]
      · rw [if_neg hl, hoid, reqField_some, bindE_ok, setFirstSize_eq_none hall]
    · intro l1 o l2 hg h1 ho
      unfold OrderBook.change
      rw [hns, hp]
      simp only [if_neg hnb, show b.get_asks p = mapGet b.asks p from rfl, hg]
      rw [if_neg (by simp : ¬(l1 ++ o :: l2 : Level) = []), hoid, reqField_some,
          bindE_ok, setFirstSize_append oid ns l1 o l2 h1 ho]
      exact changeFinish_found_asks (by rw [hside]; rfl)
        (mapGet_mapSet_self b.asks p (l1 ++ { o with size := ns } :: l2))
        ⟨{ o with size := ns },
         List.mem_append_right l1 (List.mem_cons_self _ l2), ho⟩

theorem C9_change_witness :
    OrderBook.change ⟨[((100 : ℚ), [⟨"a", "buy", 100, 2⟩, ⟨"q", "buy", 100, 4⟩,
        ⟨"z", "buy", 100, 5⟩])], [], 10, none⟩
      { msg0 with
        type := "change"
        side := "buy"
        price := some 100
        order_id := some "q"
        new_size := some 7 } =
      .ok (⟨mapSet [((100 : ℚ), [⟨"a", "buy", 100, 2⟩, ⟨"q", "buy", 100, 4⟩,
            ⟨"z", "buy", 100, 5⟩])] 100
            [⟨"a", "buy", 100, 2⟩, ⟨"q", "buy", 100, 7⟩, ⟨"z", "buy", 100, 5⟩],
          [], 10, none⟩,
           Outcome.change (some 100) (7 - 4)) :=
  ((C9_change ⟨[((100 : ℚ), [⟨"a", "buy", 100, 2⟩, ⟨"q", "buy", 100, 4⟩,
      ⟨"z", "buy", 100, 5⟩])], [], 10, none⟩
    { msg0 with
      type := "change"
      side := "buy"
      price := some 100
      order_id := some "q"
      new_size := some 7 } 100 7 "q" rfl rfl rfl).1 rfl).2.2
    [⟨"a", "buy", 100, 2⟩] ⟨"q", "buy", 100, 4⟩ [⟨"z", "buy", 100, 5⟩]
    (by decide) (by decide) rfl

/-! ### C4 : malformed events - change degrades, open raises -/

/-- Counterexample to C4 as stated: an in-order open event (sequence 11 on a
book at sequence 10) with neither a `size` nor a `remaining_size` field makes
`on_message` raise an uncaught `KeyError` instead of degrading to a
descriptive skip, and no state with an advanced sequence is produced. -/
theorem C4_counterexample :
    OrderBook.on_message ⟨[], [], 10, none⟩ ⟨0, [], []⟩
        { msg0 with
          type := "open"
          sequence := some 11
          side := "buy"
          price := some 100
          id := some "x" } =
      .error (Fault.keyError "remaining_size") := by
  rfl

/-- A change event without the `new_size` key degrades inside `change`. -/
theorem change_no_new_size {b : OrderBook} {m : Message} (hns : m.new_size = none) :
    b.change m = .ok (b, Outcome.diag "Failed to find new size at this price for change") := by
  simp only [OrderBook.change, hns]

/-- An open event with neither size field raises `KeyError` inside `add`. -/
theorem add_no_size {b : OrderBook} {m : Message} {i : String} {p : ℚ}
    (hoid : m.order_id = none) (hi : m.id = some i) (hp : m.price = some p)
    (hsz : m.size = none) (hrs : m.remaining_size = none) :
    b.add m = .error (Fault.keyError "remaining_size") := by
  simp only [OrderBook.add, addOrderId, addSize, hoid, hi, hp, hsz, hrs,
    reqField_some, reqField_none, bindE_ok, bindE_error]

/-- C4 amended: for an in-order event (sequence exactly one past the book
sequence), a change event missing its required `new_size` degrades to a
descriptive skip of that single event with no book mutation and the
sequence still advances to the event sequence; but an open event missing
both `size` and `remaining_size` raises an uncaught `KeyError` fault, with
no diagnostic return and no sequence advance. -/
theorem C4_malformed (b : OrderBook) (snap : Snapshot) (m : Message)
    (hseq : b.sequence ≠ -1) (hin : (m.sequence).getD (-1) = b.sequence + 1) :
    (m.type = "change" → m.new_size = none →
       b.on_message snap m =
         .ok ({ b with
                current_ticker := m.product_id
                sequence := b.sequence + 1 },
              Outcome.diag "Failed to find new size at this price for change")) ∧
    (∀ i p, m.type = "open" → m.order_id = none → m.id = some i →
       m.price = some p → m.size = none → m.remaining_size = none →
       b.on_message snap m = .error (Fault.keyError "remaining_size")) := by
  have hnst : ¬(m.sequence).getD (-1) ≤ b.sequence := by omega
  have hngap : ¬b.sequence + 1 < (m.sequence).getD (-1) := by omega
  constructor
  · intro hty hns
    unfold OrderBook.on_message
    rw [if_neg hseq, if_neg hnst, if_neg hngap, hty]
    rw [if_neg (show ¬("change" : String) = "open" by decide)]
    rw [if_neg (fun hc => absurd hc.1 (show ¬("change" : String) = "done" by decide))]
    rw [if_neg (fun hc => absurd hc.1 (show ¬("change" : String) = "done" by decide))]
    rw [if_neg (show ¬("change" : String) = "match" by decide)]
    rw [if_pos (show ("change" : String) = "change" by rfl)]
    rw [change_no_new_size hns, bindE_ok, hin]
  · intro i p hty hoid hi hp hsz hrs
    unfold OrderBook.on_message
    rw [if_neg hseq, if_neg hnst, if_neg hngap, hty]
    rw [if_pos (show ("open" : String) = "open" by rfl)]
    rw [add_no_size hoid hi hp hsz hrs, bindE_error]

theorem C4_malformed_witness :
    OrderBook.on_message ⟨[], [], 10, none⟩ ⟨0, [], []⟩
        { msg0 with
          type := "change"
          sequence := some 11
          side := "buy"
          price := some 100
          order_id := some "x" } =
      .ok (⟨[], [], 10 + 1, none⟩,
           Outcome.diag "Failed to find new size at this price for change") ∧
    OrderBook.on_message ⟨[], [], 10, none⟩ ⟨0, [], []⟩
        { msg0 with
          type := "open"
          sequence := some 11
          side := "sell"
          price := some 100
          id := some "y" } =
      .error (Fault.keyError "remaining_size") :=
  ⟨(C4_malformed ⟨[], [], 10, none⟩ ⟨0, [], []⟩
      { msg0 with
        type := "change"
        sequence := some 11
        side := "buy"
        price := some 100
        order_id := some "x" } (by decide) (by decide)).1 rfl rfl,
   (C4_malformed ⟨[], [], 10, none⟩ ⟨0, [], []⟩
      { msg0 with
        type := "open"
        sequence := some 11
        side := "sell"
        price := some 100
        id := some "y" } (by decide) (by decide)).2 "y" 100 rfl rfl rfl rfl rfl rfl⟩

/-! ### C1 : the no-empty-level invariant -/

/-- Counterexample to C1 as stated: from the uninitialized book, a resync to
a one-bid snapshot followed by an in-order match that fully consumes that
only bid is a reachable two-event run after which the bid index still holds
the traded price, mapped to an empty order queue. -/
theorem C1_counterexample :
    (applyAll ⟨[], [], -1, none⟩ ⟨10, [(100, 2, "a")], []⟩
        [{ msg0 with sequence := some 5 },
         { msg0 with
           type := "match"
           sequence := some 11
           side := "buy"
           price := some 100
           size := some 2
           maker_order_id := some "a" }]).map (fun bk => mapGet bk.bids 100) =
      .ok (some []) := by
  rfl

theorem add_preserves_inv {b b1 : OrderBook} {m : Message} {oc : Outcome}
    (hb : BookInv b) (h : b.add m = .ok (b1, oc)) : BookInv b1 := by
  unfold OrderBook.add at h
  cases h1 : addOrderId m with
  | error e => rw [h1, bindE_error] at h; exact Except.noConfusion h
  | ok oid =>
    rw [h1, bindE_ok] at h
    cases hp : m.price with
    | none => rw [hp, reqField_none, bindE_error] at h; exact Except.noConfusion h
    | some price =>
      rw [hp, reqField_some, bindE_ok] at h
      cases h2 : addSize m with
      | error e => rw [h2, bindE_error] at h; exact Except.noConfusion h
      | ok size =>
        rw [h2, bindE_ok] at h
        by_cases hs : m.side = "buy"
        · rw [if_pos hs] at h
          cases hg : b.get_bids price with
          | none =>
              simp only [hg, Except.ok.injEq, Prod.mk.injEq] at h
              rw [← h.1]
              exact ⟨noEmptyLevels_mapSet hb.1 (by simp), hb.2⟩
          | some l =>
              simp only [hg, Except.ok.injEq, Prod.mk.injEq] at h
              rw [← h.1]
              exact ⟨noEmptyLevels_mapSet hb.1 (by simp), hb.2⟩
        · rw [if_neg hs] at h
          cases hg : b.get_asks price with
          | none =>
              simp only [hg, Except.ok.injEq, Prod.mk.injEq] at h
              rw [← h.1]
              exact ⟨hb.1, noEmptyLevels_mapSet hb.2 (by simp)⟩
          | some l =>
              simp only [hg, Except.ok.injEq, Prod.mk.injEq] at h
              rw [← h.1]
              exact ⟨hb.1, noEmptyLevels_mapSet hb.2 (by simp)⟩

theorem remove_bids_inv {b bd : OrderBook} {p : ℚ} (hb : BookInv b)
    (h : b.remove_bids p = .ok bd) : BookInv bd := by
  unfold OrderBook.remove_bids at h
  cases hd : mapDel b.bids p with
  | error e => rw [hd, bindE_error] at h; exact Except.noConfusion h
  | ok a =>
      rw [hd, bindE_ok] at h
      simp only [Except.ok.injEq] at h
      rw [← h]
      exact ⟨noEmptyLevels_mapDel hd hb.1, hb.2⟩

theorem remove_asks_inv {b bd : OrderBook} {p : ℚ} (hb : BookInv b)
    (h : b.remove_asks p = .ok bd) : BookInv bd := by
  unfold OrderBook.remove_asks at h
  cases hd : mapDel b.asks p with
  | error e => rw [hd, bindE_error] at h; exact Except.noConfusion h
  | ok a =>
      rw [hd, bindE_ok] at h
      simp only [Except.ok.injEq] at h
      rw [← h]
      exact ⟨hb.1, noEmptyLevels_mapDel hd hb.2⟩

theorem remove_preserves_inv {b b1 : OrderBook} {m : Message} {oc : Outcome}
    (hb : BookInv b) (h : b.remove m = .ok (b1, oc)) : BookInv b1 := by
  unfold OrderBook.remove at h
  by_cases hs : m.side = "buy"
  · rw [if_pos hs] at h
    cases hg : b.get_bids ((m.price).getD (-1)) with
    | none =>
        simp only [hg, removeFinish, Except.ok.injEq, Prod.mk.injEq] at h
        rw [← h.1]
        exact hb
    | some fbids =>
        simp only [hg] at h
        cases hscan : removeScan m.order_id fbids ((m.size).getD 0)
            ((m.price).getD (-1)) false with
        | mk kept size1 price1 found =>
            simp only [hscan] at h
            by_cases hk : kept = []
            · rw [if_pos hk] at h
              cases hd : b.remove_bids price1 with
              | error e => rw [hd, bindE_error] at h; exact Except.noConfusion h
              | ok bd =>
                  rw [hd, bindE_ok] at h
                  simp only [removeFinish, Except.ok.injEq, Prod.mk.injEq] at h
                  rw [← h.1]
                  exact remove_bids_inv hb hd
            · rw [if_neg hk] at h
              simp only [removeFinish, Except.ok.injEq, Prod.mk.injEq] at h
              rw [← h.1]
              exact ⟨noEmptyLevels_mapSet hb.1 hk, hb.2⟩
  · rw [if_neg hs] at h
    cases hg : b.get_asks ((m.price).getD (-1)) with
    | none =>
        simp only [hg, removeFinish, Except.ok.injEq, Prod.mk.injEq] at h
        rw [← h.1]
        exact hb
    | some fasks =>
        simp only [hg] at h
        cases hscan : removeScan m.order_id fasks ((m.size).getD 0)
            ((m.price).getD (-1)) false with
        | mk kept size1 price1 found =>
            simp only [hscan] at h
            by_cases hk : kept = []
            · rw [if_pos hk] at h
              cases hd : b.remove_asks price1 with
              | error e => rw [hd, bindE_error] at h; exact Except.noConfusion h
              | ok bd =>
                  rw [hd, bindE_ok] at h
                  simp only [removeFinish, Except.ok.injEq, Prod.mk.injEq] at h
                  rw [← h.1]
                  exact remove_asks_inv hb hd
            · rw [if_neg hk] at h
              simp only [removeFinish, Except.ok.injEq, Prod.mk.injEq] at h
              rw [← h.1]
              exact ⟨hb.1, noEmptyLevels_mapSet hb.2 hk⟩

theorem setFirstSize_ne_nil {oid : String} {ns : ℚ} {l l1 : Level} {old : ℚ}
    (h : setFirstSize oid ns l = some (old, l1)) : l1 ≠ [] := by
  induction l generalizing l1 old with
  | nil => exact Option.noConfusion h
  | cons o rest ih =>
      simp only [setFirstSize] at h
      by_cases ho : o.id = oid
      · rw [if_pos ho] at h
        simp only [Option.some.injEq, Prod.mk.injEq] at h
        rw [← h.2]
        simp
      · rw [if_neg ho] at h
        cases hr : setFirstSize oid ns rest with
        | none => rw [hr] at h; exact Option.noConfusion h
        | some pr =>
            cases pr with
            | mk old2 rest1 =>
                simp only [hr, Option.some.injEq, Prod.mk.injEq] at h
                rw [← h.2]
                simp

theorem changeFinish_book {bx : OrderBook} {m : Message} {price : ℚ}
    {oid : String} {old new : ℚ} {b1 : OrderBook} {oc : Outcome}
    (h : changeFinish bx m price oid old new = .ok (b1, oc)) : b1 = bx := by
  unfold changeFinish at h
  cases hg : mapGet (if is_bid_side m.side then bx.bids else bx.asks) price with
  | none =>
      simp only [hg, Except.ok.injEq, Prod.mk.injEq] at h
      exact h.1.symm
  | some node =>
      simp only [hg] at h
      by_cases hall : ∀ o ∈ node, o.id ≠ oid
      · rw [if_pos hall] at h
        simp only [Except.ok.injEq, Prod.mk.injEq] at h
        exact h.1.symm
      · rw [if_neg hall] at h
        simp only [Except.ok.injEq, Prod.mk.injEq] at h
        exact h.1.symm

theorem change_preserves_inv {b b1 : OrderBook} {m : Message} {oc : Outcome}
    (hb : BookInv b) (h : b.change m = .ok (b1, oc)) : BookInv b1 := by
  unfold OrderBook.change at h
  cases hns : m.new_size with
  | none =>
      simp only [hns, Except.ok.injEq, Prod.mk.injEq] at h
      rw [← h.1]
      exact hb
  | some ns =>
      simp only [hns] at h
      cases hp : m.price with
      | none =>
          simp only [hp, Except.ok.injEq, Prod.mk.injEq] at h
          rw [← h.1]
          exact hb
      | some price =>
          simp only [hp] at h
          by_cases hs : m.side = "buy"
          · rw [if_pos hs] at h
            cases hg : b.get_bids price with
            | none =>
                simp only [hg, Except.ok.injEq, Prod.mk.injEq] at h
                rw [← h.1]
                exact hb
            | some bids =>
                simp only [hg] at h
                by_cases hbl : bids = []
                · rw [if_pos hbl] at h
                  simp only [Except.ok.injEq, Prod.mk.injEq] at h
                  rw [← h.1]
                  exact hb
                · rw [if_neg hbl] at h
                  cases hoid : m.order_id with
                  | none =>
                      rw [hoid, reqField_none, bindE_error] at h
                      exact Except.noConfusion h
                  | some oid =>
                      rw [hoid, reqField_some, bindE_ok] at h
                      cases hsf : setFirstSize oid ns bids with
                      | none =>
                          simp only [hsf, Except.ok.injEq, Prod.mk.injEq] at h
                          rw [← h.1]
                          exact hb
                      | some pr =>
                          cases pr with
                          | mk old bids1 =>
                              simp only [hsf] at h
                              rw [changeFinish_book h]
                              exact ⟨noEmptyLevels_mapSet hb.1
                                (setFirstSize_ne_nil hsf), hb.2⟩
          · rw [if_neg hs] at h
            cases hg : b.get_asks price with
            | none =>
                simp only [hg, Except.ok.injEq, Prod.mk.injEq] at h
                rw [← h.1]
                exact hb
            | some asks =>
                simp only [hg] at h
                by_cases hbl : asks = []
                · rw [if_pos hbl] at h
                  simp only [Except.ok.injEq, Prod.mk.injEq] at h
                  rw [← h.1]
                  exact hb
                · rw [if_neg hbl] at h
                  cases hoid : m.order_id with
                  | none =>
                      rw [hoid, reqField_none, bindE_error] at h
                      exact Except.noConfusion h
                  | some oid =>
                      rw [hoid, reqField_some, bindE_ok] at h
                      cases hsf : setFirstSize oid ns asks with
                      | none =>
                          simp only [hsf, Except.ok.injEq, Prod.mk.injEq] at h
                          rw [← h.1]
                          exact hb
                      | some pr =>
                          cases pr with
                          | mk old asks1 =>
                              simp only [hsf] at h
                              rw [changeFinish_book h]
                              exact ⟨hb.1, noEmptyLevels_mapSet hb.2
                                (setFirstSize_ne_nil hsf)⟩

theorem foldE_inv {α : Type} (P : OrderBook → Prop)
    (f : OrderBook → α → Except Fault OrderBook)
    (hf : ∀ bk a bk1, P bk → f bk a = .ok bk1 → P bk1) :
    ∀ (l : List α) (bk bk1), P bk → foldE f bk l = .ok bk1 → P bk1 := by
  intro l
  induction l with
  | nil =>
      intro bk bk1 hP h
      simp only [foldE, Except.ok.injEq] at h
      rw [← h]
      exact hP
  | cons a rest ih =>
      intro bk bk1 hP h
      simp only [foldE] at h
      cases h1 : f bk a with
      | error e => rw [h1, bindE_error] at h; exact Except.noConfusion h
      | ok bk2 => rw [h1, bindE_ok] at h; exact ih bk2 bk1 (hf bk a bk2 hP h1) h

theorem addBook_inv {bk bk1 : OrderBook} {m : Message} (hb : BookInv bk)
    (h : addBook bk m = .ok bk1) : BookInv bk1 := by
  unfold addBook at h
  cases ha : bk.add m with
  | error e => rw [ha, bindE_error] at h; exact Except.noConfusion h
  | ok r =>
      rw [ha, bindE_ok] at h
      simp only [Except.ok.injEq] at h
      rw [← h]
      exact add_preserves_inv hb (show bk.add m = .ok (r.1, r.2) from ha)

theorem reset_book_inv {b b1 : OrderBook} {snap : Snapshot}
    (h : b.reset_book snap = .ok b1) : BookInv b1 := by
  unfold OrderBook.reset_book at h
  cases h1 : foldE (fun bk e => addBook bk (snapMessage "buy" e))
      { b with bids := [], asks := [] } snap.bids with
  | error e => rw [h1, bindE_error] at h; exact Except.noConfusion h
  | ok bb =>
      rw [h1, bindE_ok] at h
      cases h2 : foldE (fun bk e => addBook bk (snapMessage "sell" e)) bb snap.asks with
      | error e => rw [h2, bindE_error] at h; exact Except.noConfusion h
      | ok bc =>
          rw [h2, bindE_ok] at h
          simp only [Except.ok.injEq] at h
          rw [← h]
          have hbb : BookInv bb :=
            foldE_inv BookInv _ (fun bk a bk1 hP hf => addBook_inv hP hf)
              snap.bids _ _ ⟨noEmptyLevels_nil, noEmptyLevels_nil⟩ h1
          have hbc : BookInv bc :=
            foldE_inv BookInv _ (fun bk a bk1 hP hf => addBook_inv hP hf)
              snap.asks _ _ hbb h2
          exact ⟨hbc.1, hbc.2⟩

theorem matchMsg_preserves_inv {b b1 : OrderBook} {m : Message} {oc : Outcome}
    {p s : ℚ} {o : Order} {rest : Level} (hb : BookInv b)
    (hp : m.price = some p) (hs : m.size = some s) :
    (m.side = "buy" → mapGet b.bids p = some (o :: rest) → (o.size ≠ s ∨ rest ≠ []) →
       b.matchMsg m = .ok (b1, oc) → BookInv b1) ∧
    (m.side ≠ "buy" → mapGet b.asks p = some (o :: rest) → (o.size ≠ s ∨ rest ≠ []) →
       b.matchMsg m = .ok (b1, oc) → BookInv b1) := by
  constructor
  · intro hside hg hcond h
    unfold OrderBook.matchMsg at h
    rw [hs, reqField_some, bindE_ok, hp, reqField_some, bindE_ok, if_pos hside] at h
    simp only [show b.get_bids p = mapGet b.bids p from rfl, hg] at h
    cases hm : m.maker_order_id with
    | none => rw [hm, reqField_none, bindE_error] at h; exact Except.noConfusion h
    | some maker =>
        rw [hm, reqField_some, bindE_ok] at h
        by_cases hid : o.id = maker
        · rw [if_pos hid] at h
          by_cases hsz : o.size = s
          · rw [if_pos hsz] at h
            rcases hcond with hc | hc
            · exact absurd hsz hc
            · simp only [Except.ok.injEq, Prod.mk.injEq] at h
              rw [← h.1]
              exact ⟨noEmptyLevels_mapSet hb.1 hc, hb.2⟩
          · rw [if_neg hsz] at h
            simp only [Except.ok.injEq, Prod.mk.injEq] at h
            rw [← h.1]
            exact ⟨noEmptyLevels_mapSet hb.1 (by simp), hb.2⟩
        · rw [if_neg hid] at h
          exact Except.noConfusion h
  · intro hside hg hcond h
    unfold OrderBook.matchMsg at h
    rw [hs, reqField_some, bindE_ok, hp, reqField_some, bindE_ok, if_neg hside] at h
    simp only [show b.get_asks p = mapGet b.asks p from rfl, hg] at h
    cases hm : m.maker_order_id with
    | none => rw [hm, reqField_none, bindE_error] at h; exact Except.noConfusion h
    | some maker =>
        rw [hm, reqField_some, bindE_ok] at h
        by_cases hid : o.id = maker
        · rw [if_pos hid] at h
          by_cases hsz : o.size = s
          · rw [if_pos hsz] at h
            rcases hcond with hc | hc
            · exact absurd hsz hc
            · simp only [Except.ok.injEq, Prod.mk.injEq] at h
              rw [← h.1]
              exact ⟨hb.1, noEmptyLevels_mapSet hb.2 hc⟩
          · rw [if_neg hsz] at h
            simp only [Except.ok.injEq, Prod.mk.injEq] at h
            rw [← h.1]
            exact ⟨hb.1, noEmptyLevels_mapSet hb.2 (by simp)⟩
        · rw [if_neg hid] at h
          exact Except.noConfusion h

/-- C1 amended: the no-empty-level invariant is preserved by `add`,
`remove`, `change` and `reset_book`, and by `matchMsg` except in the one
case the counterexample exhibits: a match whose traded size equals the head
order size when that head is the only order at the level writes the empty
tail back into the index, leaving an empty level entry at the traded price. -/
theorem C1_no_empty_levels (b : OrderBook) (m : Message) (snap : Snapshot)
    (hb : BookInv b) :
    (∀ b1 oc, b.add m = .ok (b1, oc) → BookInv b1) ∧
    (∀ b1 oc, b.remove m = .ok (b1, oc) → BookInv b1) ∧
    (∀ b1 oc, b.change m = .ok (b1, oc) → BookInv b1) ∧
    (∀ b1, b.reset_book snap = .ok b1 → BookInv b1) ∧
    (∀ b1 oc p s o rest, m.price = some p → m.size = some s →
       m.side = "buy" → mapGet b.bids p = some (o :: rest) →
       (o.size ≠ s ∨ rest ≠ []) →
       b.matchMsg m = .ok (b1, oc) → BookInv b1) ∧
    (∀ b1 oc p s o rest, m.price = some p → m.size = some s →
       m.side ≠ "buy" → mapGet b.asks p = some (o :: rest) →
       (o.size ≠ s ∨ rest ≠ []) →
       b.matchMsg m = .ok (b1, oc) → BookInv b1) :=
  ⟨fun _ _ h => add_preserves_inv hb h,
   fun _ _ h => remove_preserves_inv hb h,
   fun _ _ h => change_preserves_inv hb h,
   fun _ h => reset_book_inv h,
   fun _ _ _ _ _ _ hp hs hside hg hcond h =>
     (matchMsg_preserves_inv hb hp hs).1 hside hg hcond h,
   fun _ _ _ _ _ _ hp hs hside hg hcond h =>
     (matchMsg_preserves_inv hb hp hs).2 hside hg hcond h⟩

theorem C1_no_empty_levels_witness :
    BookInv ⟨mapSet [((100 : ℚ), [⟨"a", "buy", 100, 2⟩])] 100
      ([⟨"a", "buy", 100, 2⟩] ++ [⟨"c", "buy", 100, 1⟩]), [], 10, none⟩ :=
  (C1_no_empty_levels ⟨[((100 : ℚ), [⟨"a", "buy", 100, 2⟩])], [], 10, none⟩
      { msg0 with
        type := "open"
        side := "buy"
        order_id := some "c"
        price := some 100
        size := some 1 } ⟨0, [], []⟩ (by decide)).1
    ⟨mapSet [((100 : ℚ), [⟨"a", "buy", 100, 2⟩])] 100
      ([⟨"a", "buy", 100, 2⟩] ++ [⟨"c", "buy", 100, 1⟩]), [], 10, none⟩
    (Outcome.change (some 100) 1) (by rfl)
